import Mathlib

/-!
Verification of the minivpn protocol engine against its natural-language
specification.

This file is a shallow embedding of the Go sources of the repository.
Bytes are modelled as `Nat` (with explicit `% 256` where Go converts an
int to a byte), byte strings as `List Nat`, Go `uint32` counters as `Nat`
with the explicit bound `maxUint32`, fallible Go functions as `Except`
or `Option` (where `none` models a Go panic), and stateful methods as
explicit state-passing functions.  External collaborators (the Go
standard-library AES/HMAC primitives) are abstracted as function
parameters, since they are out of scope per the spec.

Each section names the source file it embeds.
-/

namespace Minivpn

/-! ## Section 1: internal/session/manager.go -/

/-- Largest value of a Go `uint32` (`math.MaxUint32`). -/
def maxUint32 : Nat := 4294967295

/-- OpenVPN opcodes.  Modelled from the spec: the package internal/model is
not under src/; the spec (section 3) enumerates exactly these named packet
classes. -/
inductive Opcode where
  | controlHardResetClientV2
  | controlHardResetServerV2
  | controlV1
  | ackV1
  | dataV1
  | dataV2
deriving DecidableEq, Repr

/-- Modelled from the spec: `Opcode.IsControl` lives in the missing
internal/model package; per the spec (section 3) the control class is made of
the `CONTROL_*` opcodes, while `ACK_V1` and `DATA_*` are not control. -/
def Opcode.isControl : Opcode → Bool
  | .controlHardResetClientV2 => true
  | .controlHardResetServerV2 => true
  | .controlV1 => true
  | _ => false

/-- A parsed OpenVPN packet.  Modelled from the spec: `model.Packet` is in the
missing internal/model package; the fields follow the packet table in
section 3 of the spec. -/
structure Packet where
  opcode : Opcode
  keyID : Nat
  peerID : List Nat
  localSessionID : List Nat
  acks : List Nat
  remoteSessionID : List Nat
  pid : Nat
  payload : List Nat
deriving DecidableEq, Repr

/-- Modelled from the spec: `model.NewPacket` (missing internal/model package)
builds a packet from opcode, key id and payload, with every other field left
at its zero value (in particular packet id zero and no acks). -/
def modelNewPacket (opcode : Opcode) (keyID : Nat) (payload : List Nat) : Packet :=
  { opcode := opcode
    keyID := keyID
    peerID := []
    localSessionID := []
    acks := []
    remoteSessionID := []
    pid := 0
    payload := payload }

/-- Negotiation states, with the numeric values given in src/unnamed/part_002
(`S_ERROR = iota - 1`, so `S_UNDEF = 0`, ..., `S_GENERATED_KEYS = 8`). -/
def S_ERROR : Int := -1

def S_UNDEF : Int := 0

def S_INITIAL : Int := 1

def S_PRE_START : Int := 2

def S_START : Int := 3

def S_SENT_KEY : Int := 4

def S_GOT_KEY : Int := 5

def S_ACTIVE : Int := 6

def S_GENERATED_KEYS : Int := 7

/-- Errors returned by the session manager. -/
inductive SessionErr where
  | errExpiredKey
  | errNoRemoteSessionID
deriving DecidableEq, Repr

/-- The state of `session.Manager` (internal/session/manager.go), restricted
to the fields the verified operations touch.  The mutex, logger, tracer,
tunnel info and key slots are omitted: none of the operations modelled here
reads or writes them in a way the claims depend on. -/
structure Manager where
  keyID : Nat
  localControlPacketID : Nat
  localDataPacketID : Nat
  localSessionID : List Nat
  negState : Int
  remoteSessionID : Option (List Nat)
deriving DecidableEq, Repr

/-- `NewManager` (manager.go lines 37-77): the deterministic part of the
constructor.  The 8 random session-id bytes are passed in as a parameter
(the random-bytes provider is an injectable collaborator per the spec). -/
def newManager (randomBytes : List Nat) : Manager :=
  { keyID := 0
    -- localControlPacketID should be initialized to 1 because hard-resets
    -- are handled as special cases
    localControlPacketID := 1
    -- the reference server misbehaves when the data packet id starts at 0
    localDataPacketID := 1
    localSessionID := randomBytes.take 8
    negState := 0
    remoteSessionID := none }

/-- `Manager.localDataPacketIDLocked` (manager.go lines 185-193): returns the
current data packet id and increments the counter, except at `maxUint32`
where it returns `ErrExpiredKey` and leaves the counter alone. -/
def localDataPacketIDLocked (m : Manager) : Except SessionErr (Nat × Manager) :=
  let pid := m.localDataPacketID
  if pid = maxUint32 then
    -- we reached the max packetID, increment would overflow
    .error .errExpiredKey
  else
    .ok (pid, { m with localDataPacketID := m.localDataPacketID + 1 })

/-- `Manager.LocalDataPacketID` (manager.go lines 177-181): the public entry
point just takes the mutex and calls the locked helper. -/
def LocalDataPacketID (m : Manager) : Except SessionErr (Nat × Manager) :=
  localDataPacketIDLocked m

/-- `Manager.localControlPacketIDLocked` (manager.go lines 197-205). -/
def localControlPacketIDLocked (m : Manager) : Except SessionErr (Nat × Manager) :=
  let pid := m.localControlPacketID
  if pid = maxUint32 then
    .error .errExpiredKey
  else
    .ok (pid, { m with localControlPacketID := m.localControlPacketID + 1 })

/-- `Manager.NewPacket` (manager.go lines 129-154): builds a packet with the
local session id, draws a fresh packet id from the control or the data
counter according to the opcode class, and copies the remote session id when
known. -/
def NewPacket (m : Manager) (opcode : Opcode) (payload : List Nat) :
    Except SessionErr (Packet × Manager) :=
  let packet := modelNewPacket opcode m.keyID payload
  let packet := { packet with localSessionID := m.localSessionID }
  match (if opcode.isControl then localControlPacketIDLocked m else localDataPacketIDLocked m) with
  | .error e => .error e
  | .ok (pid, m') =>
    let packet := { packet with pid := pid }
    let packet :=
      match m'.remoteSessionID with
      | some r => { packet with remoteSessionID := r }
      | none => packet
    .ok (packet, m')

/-- `Manager.NewHardResetPacket` (manager.go lines 160-171): builds the
client hard-reset with packet id zero; the method reads `keyID` and
`localSessionID` and writes no field of the manager. -/
def NewHardResetPacket (m : Manager) : Packet × Manager :=
  let packet := modelNewPacket .controlHardResetClientV2 m.keyID []
  -- a hard reset will always have packet ID zero
  let packet := { packet with pid := 0, localSessionID := m.localSessionID }
  (packet, m)

/-- `Manager.NewACKForPacketIDs` (manager.go lines 109-126). -/
def NewACKForPacketIDs (m : Manager) (ids : List Nat) :
    Except SessionErr (Packet × Manager) :=
  match m.remoteSessionID with
  | none => .error .errNoRemoteSessionID
  | some r =>
    .ok ({ opcode := .ackV1
           keyID := m.keyID
           peerID := []
           localSessionID := m.localSessionID
           acks := ids
           remoteSessionID := r
           pid := 0
           payload := [] }, m)

/-- `Manager.SetRemoteSessionID` (manager.go lines 245-250): stores the
remote session id; `runtimex.Assert` (src/unnamed/part_001) panics when it
was already set, which is modelled by `none`. -/
def SetRemoteSessionID (m : Manager) (remoteSessionID : List Nat) : Option Manager :=
  if m.remoteSessionID.isNone then
    some { m with remoteSessionID := some remoteSessionID }
  else
    none

/-- `Manager.SetNegotiationState` (manager.go lines 215-224): stores the new
state unconditionally; the returned `Bool` records whether the method sends
on the `Ready` channel, which it does exactly when the new state is
`S_GENERATED_KEYS`. -/
def SetNegotiationState (m : Manager) (sns : Int) : Manager × Bool :=
  ({ m with negState := sns }, sns = S_GENERATED_KEYS)

/-- One public mutating call on the session manager; used to quantify over
every reachable manager state. -/
inductive MOp where
  | newPacket (opcode : Opcode) (payload : List Nat)
  | newHardReset
  | localDataPacketID
  | newACK (ids : List Nat)
  | setRemoteSessionID (r : List Nat)
  | setNegotiationState (sns : Int)
deriving Repr

/-- The state transition each manager call induces; `none` models a panic
(only `SetRemoteSessionID` can panic).  Calls that return an error leave the
state unchanged, exactly as the Go methods do. -/
def applyOp (m : Manager) : MOp → Option Manager
  | .newPacket opcode payload =>
    match NewPacket m opcode payload with
    | .ok (_, m') => some m'
    | .error _ => some m
  | .newHardReset => some (NewHardResetPacket m).2
  | .localDataPacketID =>
    match LocalDataPacketID m with
    | .ok (_, m') => some m'
    | .error _ => some m
  | .newACK _ => some m
  | .setRemoteSessionID r => SetRemoteSessionID m r
  | .setNegotiationState sns => some (SetNegotiationState m sns).1

/-- Runs a sequence of manager calls; `none` when some call panicked. -/
def runOps (m : Manager) : List MOp → Option Manager
  | [] => some m
  | op :: rest =>
    match applyOp m op with
    | some m' => runOps m' rest
    | none => none

/-! ## Section 2: src/vpn/ciphers.go, PKCS#7 padding (lines 262-279) -/

/-- `cipherPadTextPKCS7` (ciphers.go lines 272-279): appends
`bs - len(buf) % bs` copies of that same value, converted to a byte.
Meaningful for `1 ≤ bs`; Go divides by zero when `bs = 0`. -/
def cipherPadTextPKCS7 (buf : List Nat) (bs : Nat) : List Nat :=
  let padding := bs - buf.length % bs
  buf ++ List.replicate padding (padding % 256)

/-- `cipherUnpadTextPKCS7` (ciphers.go lines 262-269): reads the last byte
and strips that many bytes, with no validation of the padding; `none`
models the Go panics (empty buffer, or a count larger than the buffer). -/
def cipherUnpadTextPKCS7 (buf : List Nat) : Option (List Nat) :=
  match buf.getLast? with
  | none => none
  | some padding =>
    if padding ≤ buf.length then some (buf.take (buf.length - padding)) else none

/-! ## Section 3: src/vpn/crypto.go, cipher construction (lines 226-264) -/

/-- Error values of crypto.go.  Each Go sentinel error is a distinct
constructor; `backendErr` wraps errors coming out of the Go standard-library
crypto collaborators (`aes.NewCipher`, `cipher.NewGCM`, `aesGCM.Open`),
which are distinct from every sentinel. -/
inductive CipherErr where
  | invalidKeySize
  | unsupportedCipher
  | unsupportedMode
  | badInput
  | unpaddingPKCS7
  | unpaddingCheck
  | backendErr (code : Nat)
deriving DecidableEq, Repr

/-- The `cipherModeCBC` string constant. -/
def cipherModeCBC : String := "cbc"

/-- The `cipherModeGCM` string constant. -/
def cipherModeGCM : String := "gcm"

/-- The `cipherNameAES` string constant. -/
def cipherNameAES : String := "aes"

/-- The `dataCipherAES` record (crypto.go lines 92-98): key size in bytes
plus cipher mode. -/
structure DataCipherAES where
  ksb : Nat
  mode : String
deriving DecidableEq, Repr

/-- `newDataCipher` (crypto.go lines 245-264): validates bits, name and
mode, and builds a `dataCipherAES` with `ksb = bits / 8`. -/
def newDataCipher (name : String) (bits : Nat) (mode : String) :
    Except CipherErr DataCipherAES :=
  if bits % 8 ≠ 0 ∨ 512 < bits ∨ bits < 64 then .error .invalidKeySize
  else if name = cipherNameAES then
    if mode = cipherModeCBC ∨ mode = cipherModeGCM then
      .ok { ksb := bits / 8, mode := mode }
    else .error .unsupportedMode
  else .error .unsupportedCipher

/-- `newDataCipherFromCipherSuite` (crypto.go lines 227-242; the copy in
ciphers.go lines 203-218 has the same five cases): maps a suite name to a
cipher, defaulting to `errUnsupportedCipher`. -/
def newDataCipherFromCipherSuite (c : String) : Except CipherErr DataCipherAES :=
  if c = "AES-128-CBC" then newDataCipher cipherNameAES 128 cipherModeCBC
  else if c = "AES-192-CBC" then newDataCipher cipherNameAES 192 cipherModeCBC
  else if c = "AES-256-CBC" then newDataCipher cipherNameAES 256 cipherModeCBC
  else if c = "AES-128-GCM" then newDataCipher cipherNameAES 128 cipherModeGCM
  else if c = "AES-256-GCM" then newDataCipher cipherNameAES 256 cipherModeGCM
  else .error .unsupportedCipher

/-! ## Section 4: src/vpn/crypto.go, AES data cipher (lines 122-224)

The Go standard-library primitives are abstracted: an `AESBackend` stands
for the pair (`aes.NewCipher`, `cipher.NewGCM`) and the block/AEAD objects
they return.  The embedding keeps exactly the control flow of the Go
methods around those calls. -/

/-- An AES block cipher as returned by `aes.NewCipher`, together with the
CBC modes built from it. -/
structure AESBlockCipher where
  blockSize : Nat
  cbcEncrypt : List Nat → List Nat → List Nat
  cbcDecrypt : List Nat → List Nat → List Nat

/-- An AEAD as returned by `cipher.NewGCM`; `openGCM` can fail
(authentication failure), with a backend error code. -/
structure AESGCM where
  sealGCM : List Nat → List Nat → List Nat → List Nat
  openGCM : List Nat → List Nat → List Nat → Except Nat (List Nat)

/-- The abstracted Go crypto collaborators. -/
structure AESBackend where
  newCipher : List Nat → Except Nat AESBlockCipher
  newGCM : AESBlockCipher → Except Nat AESGCM

/-- Modelled from the spec: `bytesUnpadPKCS7` is referenced by crypto.go
line 143 but its defining file is not under src/; its behavior is pinned by
the table-driven tests in src/unnamed/part_006 (error on block size above
255, on an empty buffer, on a zero last byte, and on a count larger than
the block size or the buffer; otherwise strip). -/
def bytesUnpadPKCS7 (b : List Nat) (blockSize : Nat) : Except CipherErr (List Nat) :=
  if 255 < blockSize then .error .unpaddingPKCS7
  else
    match b.getLast? with
    | none => .error .unpaddingPKCS7
    | some tail =>
      if tail = 0 ∨ blockSize < tail ∨ b.length < tail then .error .unpaddingPKCS7
      else .ok (b.take (b.length - tail))

/-- `dataCipherAES.encrypt` (crypto.go lines 191-224): rejects keys shorter
than the key size, truncates the key material to `ksb` bytes, then runs the
CBC or GCM mode of the backend cipher. -/
def dataCipherAESencrypt (B : AESBackend) (a : DataCipherAES)
    (key iv plaintext ad : List Nat) : Except CipherErr (List Nat) :=
  if key.length < a.ksb then .error .invalidKeySize
  else
    -- the key material might be longer
    let k := key.take a.ksb
    match B.newCipher k with
    | .error e => .error (.backendErr e)
    | .ok block =>
      if a.mode = cipherModeCBC then
        -- Note: the Go code panics when len(iv) differs from the block
        -- size; the panic happens inside the abstracted collaborator.
        .ok (block.cbcEncrypt iv plaintext)
      else if a.mode = cipherModeGCM then
        match B.newGCM block with
        | .error e => .error (.backendErr e)
        | .ok g => .ok (g.sealGCM iv plaintext ad)
      else .error .unsupportedMode

/-- `dataCipherAES.decrypt` (crypto.go lines 125-182): rejects keys shorter
than the key size, truncates the key material to `ksb` bytes, then checks
the iv length and runs the CBC (with PKCS#7 unpadding and the padding-length
check) or GCM mode. -/
def dataCipherAESdecrypt (B : AESBackend) (a : DataCipherAES)
    (key iv ciphertext ad : List Nat) : Except CipherErr (List Nat) :=
  if key.length < a.ksb then .error .invalidKeySize
  else
    -- the key material might be longer
    let k := key.take a.ksb
    match B.newCipher k with
    | .error e => .error (.backendErr e)
    | .ok block =>
      if a.mode = cipherModeCBC then
        if iv.length ≠ block.blockSize then .error .badInput
        else
          let plaintext := block.cbcDecrypt iv ciphertext
          match bytesUnpadPKCS7 plaintext block.blockSize with
          | .error e => .error e
          | .ok plaintext2 =>
            let padLen : Int := (ciphertext.length : Int) - plaintext2.length
            if (block.blockSize : Int) < padLen ∨ (plaintext2.length : Int) < padLen then
              .error .unpaddingCheck
            else .ok plaintext2
      else if a.mode = cipherModeGCM then
        -- the standard GCM nonce size is 12
        if iv.length ≠ 12 then .error .badInput
        else
          match B.newGCM block with
          | .error e => .error (.backendErr e)
          | .ok g =>
            match g.openGCM iv ciphertext ad with
            | .error e => .error (.backendErr e)
            | .ok plaintext => .ok plaintext
      else .error .unsupportedMode

/-! ## Section 5: src/vpn/crypto.go, key-derivation PRF (lines 283-344)

The HMAC-MD5 and HMAC-SHA1 primitives of the Go standard library are
abstracted as function parameters `(key msg : List Nat) → List Nat` whose
output length is a fixed positive constant (the digest size). -/

/-- `splitPreMasterSecret` (crypto.go lines 319-324):
`s1 = secret[0 : (n+1)/2]` and `s2 = secret[n/2 :]`. -/
def splitPreMasterSecret (secret : List Nat) : List Nat × List Nat :=
  (secret.take ((secret.length + 1) / 2), secret.drop (secret.length / 2))

/-- The chunk stream of `pHash` (crypto.go lines 328-344): iteration `i`
emits `HMAC(secret, A(i) || seed)` where `A(1) = HMAC(secret, seed)` and
`A(i+1) = HMAC(secret, A(i))`.  The Go loop runs until `olen` bytes are
produced; running it `fuel` times and truncating below gives the same
bytes whenever `fuel * digestLength ≥ olen`. -/
def pHashChunks (hm : List Nat → List Nat → List Nat) (secret seed : List Nat) :
    List Nat → Nat → List Nat
  | _, 0 => []
  | a, fuel + 1 => hm secret (a ++ seed) ++ pHashChunks hm secret seed (hm secret a) fuel

/-- `pHash` (crypto.go lines 328-344): fills a `olen`-byte output with the
chunk stream; `olen` iterations suffice since every digest has at least one
byte. -/
def pHash (hm : List Nat → List Nat → List Nat) (secret seed : List Nat) (olen : Nat) :
    List Nat :=
  (pHashChunks hm secret seed (hm secret seed) olen).take olen

/-- `prf10` (crypto.go lines 299-315): the TLS 1.0 PRF; P_MD5 over the
first half of the secret XORed byte-wise with P_SHA1 over the second half,
both keyed on `label || seed`. -/
def prf10 (hmacMD5 hmacSHA1 : List Nat → List Nat → List Nat)
    (secret label seed : List Nat) (olen : Nat) : List Nat :=
  let labelAndSeed := label ++ seed
  let s := splitPreMasterSecret secret
  let result := pHash hmacMD5 s.1 labelAndSeed olen
  let result2 := pHash hmacSHA1 s.2 labelAndSeed olen
  List.zipWith Nat.xor result result2

/-- `prf` (crypto.go lines 283-293): concatenates the seeds (skipping empty
session ids) and calls `prf10`. -/
def prf (hmacMD5 hmacSHA1 : List Nat → List Nat → List Nat)
    (secret label clientSeed serverSeed clientSid serverSid : List Nat)
    (olen : Nat) : List Nat :=
  let seed := clientSeed ++ serverSeed
  let seed := if clientSid.length ≠ 0 then seed ++ clientSid else seed
  let seed := if serverSid.length ≠ 0 then seed ++ serverSid else seed
  prf10 hmacMD5 hmacSHA1 secret label seed olen

/-! ## Section 6: src/unnamed/part_007, TLSConn reliability layer
(lines 232-304)

`TLSConn.Read` loops: with an empty ack queue it reads a packet from the
conn (`doReadFromConn`); otherwise it takes a packet from the queue
(`doReadFromQueue`).  A packet passing `canRead` is ACKed and its payload
is handed to the byte-stream buffer; any other packet is put on the ack
queue and the loop continues.  The conn is modelled as the list of packets
it will yield (an empty list models a read error), and the session by the
modelled-from-spec state below. -/

/-- A control packet as seen by the reliability layer. -/
structure RPacket where
  pid : Nat
  payload : List Nat
deriving DecidableEq, Repr

/-- The session state the reliability layer touches.  Modelled from the
spec: the old vpn-package session struct is not under src/; per the spec,
the receiver tracks the next inbound packet-id to deliver, and
src/vpn/transport_test.go pins `canRead` to accept exactly
`lastACK + 1`.  `acked` is the trace of ACKs sent, and `ackQueue` the
channel of out-of-order packets. -/
structure TLSState where
  lastACK : Nat
  ackQueue : List RPacket
  acked : List Nat
deriving DecidableEq, Repr

/-- Modelled from the spec: `session.isNextPacket` is not under src/; it
accepts exactly the next integer in the expected sequence (part_007 lines
300-304 and the `TestTLSConn_canRead` cases in src/vpn/transport_test.go). -/
def isNextPacket (s : TLSState) (p : RPacket) : Bool :=
  p.pid == s.lastACK + 1

/-- `TLSConn.canRead` (part_007 lines 300-304): non-nil and next in
sequence. -/
def canRead (s : TLSState) (p : Option RPacket) : Bool :=
  match p with
  | none => false
  | some q => isNextPacket s q

/-- Modelled from the spec: `sendACK` is not under src/; acknowledging a
delivered packet advances the expected sequence and records the ACK sent
to the peer. -/
def sendACK (s : TLSState) (pid : Nat) : TLSState :=
  { s with lastACK := pid, acked := s.acked ++ [pid] }

/-- `TLSConn.Read` (part_007 lines 232-288) with `doReadFromConn` and
`doReadFromQueue` inlined; recursion is on the conn packet list.  Returns
the payload written to the byte-stream buffer (`none` models returning a
read error), the final session state, and the packets left on the conn.

Branches, in source order:
the queue head is examined first when the queue is non-empty
(`doReadFromQueue`): if it passes `canRead` it is ACKed and delivered,
otherwise it is re-enqueued at the back and one packet is read from the
conn (`doReadFromConn`); with an empty queue the conn is read directly.
A conn packet that passes `canRead` is ACKed and delivered; any other is
pushed onto the ack queue and the `Read` loop continues. -/
def tlsRead : TLSState → List RPacket → Option (List Nat) × TLSState × List RPacket
  | s, [] =>
    match s.ackQueue with
    | p :: qrest =>
      if canRead s (some p) then
        (some p.payload, sendACK { s with ackQueue := qrest } p.pid, [])
      else
        -- rotate the queue, then the conn read fails
        (none, { s with ackQueue := qrest ++ [p] }, [])
    | [] => (none, s, [])
  | s, q :: rest =>
    match s.ackQueue with
    | p :: qrest =>
      if canRead s (some p) then
        (some p.payload, sendACK { s with ackQueue := qrest } p.pid, q :: rest)
      else
        -- doReadFromQueue re-enqueues p, then falls back to doReadFromConn
        let s' : TLSState := { s with ackQueue := qrest ++ [p] }
        if canRead s' (some q) then
          (some q.payload, sendACK s' q.pid, rest)
        else
          tlsRead { s' with ackQueue := s'.ackQueue ++ [q] } rest
    | [] =>
      if canRead s (some q) then
        (some q.payload, sendACK s q.pid, rest)
      else
        tlsRead { s with ackQueue := s.ackQueue ++ [q] } rest

/-! ## Section 7: src/unnamed/part_000, data-channel moveUpWorker
(lines 126-155) -/

/-- A decryption failure inside `dataChannel.readPacket`. -/
inductive DCErr where
  | decryptFailed
deriving DecidableEq, Repr

/-- What one `moveUpWorker` iteration emits: at most one plaintext to the
TUN channel, and the packets it writes down to the muxer channel. -/
structure UpResult where
  toTUN : Option (List Nat)
  toMuxer : List (List Nat)
deriving DecidableEq, Repr

/-- The 16-byte fixed keepalive payload recorded in the comment at
src/unnamed/part_000 lines 143-144. -/
def pingPayload16 : List Nat :=
  [0x2a, 0x18, 0x7b, 0xf3, 0x64, 0x1e, 0xb4, 0xcb,
   0x07, 0xed, 0x2d, 0x0a, 0x98, 0x1f, 0xc7, 0x48]

/-- One iteration of `moveUpWorker` (part_000 lines 132-154), as a function
of the `dataChannel.readPacket` outcome for the packet taken from
`muxerToData`: a decryption error is logged and skipped; a 16-byte
decrypted payload is dumped and skipped; anything else goes to
`dataToTUN`.  No branch writes to `dataOrControlToMuxer`. -/
def moveUpWorkerStep (decryptResult : Except DCErr (List Nat)) : UpResult :=
  match decryptResult with
  | .error _ => { toTUN := none, toMuxer := [] }
  | .ok decrypted =>
    if decrypted.length = 16 then { toTUN := none, toMuxer := [] }
    else { toTUN := some decrypted, toMuxer := [] }

/-- The worker loop over a finite trace of decryption outcomes: collects
the plaintexts delivered to the TUN (in order) and the packets sent down
to the muxer. -/
def moveUpWorkerRun : List (Except DCErr (List Nat)) → List (List Nat) × List (List Nat)
  | [] => ([], [])
  | r :: rest =>
    let u := moveUpWorkerStep r
    let tailRun := moveUpWorkerRun rest
    (match u.toTUN with
     | some d => d :: tailRun.1
     | none => tailRun.1,
     u.toMuxer ++ tailRun.2)

/-! ## Theorems -/

/-- C2: on a freshly constructed session manager the local data packet-id
counter is 1; while the counter is below `UINT32_MAX`,
`LocalDataPacketID` returns the current counter value and increments it by
one; when the counter is `UINT32_MAX` it returns `ErrExpiredKey` and
leaves the manager unchanged. -/
theorem localDataPacketID_spec (rb : List Nat) (m : Manager)
    (hlt : m.localDataPacketID ≠ maxUint32) (m2 : Manager)
    (hmax : m2.localDataPacketID = maxUint32) :
    (newManager rb).localDataPacketID = 1 ∧
    LocalDataPacketID m =
      .ok (m.localDataPacketID, { m with localDataPacketID := m.localDataPacketID + 1 }) ∧
    LocalDataPacketID m2 = .error .errExpiredKey := by
  refine ⟨rfl, ?_, ?_⟩
  · simp [LocalDataPacketID, localDataPacketIDLocked, hlt]
  · simp [LocalDataPacketID, localDataPacketIDLocked, hmax]

/-- C2 witness: the theorem at the fresh manager, at a counter of 5, and at
a counter of `UINT32_MAX`. -/
theorem localDataPacketID_spec_witness :
    (newManager []).localDataPacketID = 1 ∧
    LocalDataPacketID
        { keyID := 0, localControlPacketID := 1, localDataPacketID := 5,
          localSessionID := [], negState := 0, remoteSessionID := none } =
      .ok (5, { keyID := 0, localControlPacketID := 1, localDataPacketID := 6,
                localSessionID := [], negState := 0, remoteSessionID := none }) ∧
    LocalDataPacketID
        { keyID := 0, localControlPacketID := 1, localDataPacketID := maxUint32,
          localSessionID := [], negState := 0, remoteSessionID := none } =
      .error .errExpiredKey :=
  localDataPacketID_spec [] _ (by decide) _ rfl

/-- C9 counterexample: `SetNegotiationState` enforces no monotonicity.
Starting from the fresh manager, setting `S_GENERATED_KEYS` and then
`S_INITIAL` succeeds (no assertion fires; the function is total) and moves
the negotiation state to a strictly earlier state of the sequence. -/
theorem setNegotiationState_moves_backward :
    (SetNegotiationState
        (SetNegotiationState (newManager []) S_GENERATED_KEYS).1 S_INITIAL).1.negState
      = S_INITIAL ∧
    S_INITIAL < S_GENERATED_KEYS := by
  exact ⟨rfl, by decide⟩

/-- C9 amended: `SetNegotiationState` stores any requested state
unconditionally (there is no assertion and no rejected transition), and it
signals the `Ready` channel exactly when the new state is
`S_GENERATED_KEYS`. -/
theorem setNegotiationState_spec (m : Manager) (sns : Int) :
    (SetNegotiationState m sns).1 = { m with negState := sns } ∧
    ((SetNegotiationState m sns).2 = true ↔ sns = S_GENERATED_KEYS) := by
  refine ⟨rfl, ?_⟩
  simp [SetNegotiationState]

/-- C4 counterexample: the suite `AES-192-GCM` is not in the switch of
`newDataCipherFromCipherSuite`, so it falls through to
`errUnsupportedCipher` instead of yielding a 24-byte-key GCM cipher. -/
theorem newDataCipherFromCipherSuite_aes192gcm :
    newDataCipherFromCipherSuite "AES-192-GCM" = .error .unsupportedCipher := by
  rfl

/-- C4 amended: exactly five suite names are supported, each mapping to the
matching key size and mode with no error; every other name, including
`AES-192-GCM`, yields `errUnsupportedCipher`. -/
theorem newDataCipherFromCipherSuite_spec (c : String)
    (h1 : c ≠ "AES-128-CBC") (h2 : c ≠ "AES-192-CBC") (h3 : c ≠ "AES-256-CBC")
    (h4 : c ≠ "AES-128-GCM") (h5 : c ≠ "AES-256-GCM") :
    newDataCipherFromCipherSuite "AES-128-CBC" = .ok { ksb := 16, mode := cipherModeCBC } ∧
    newDataCipherFromCipherSuite "AES-192-CBC" = .ok { ksb := 24, mode := cipherModeCBC } ∧
    newDataCipherFromCipherSuite "AES-256-CBC" = .ok { ksb := 32, mode := cipherModeCBC } ∧
    newDataCipherFromCipherSuite "AES-128-GCM" = .ok { ksb := 16, mode := cipherModeGCM } ∧
    newDataCipherFromCipherSuite "AES-256-GCM" = .ok { ksb := 32, mode := cipherModeGCM } ∧
    newDataCipherFromCipherSuite c = .error .unsupportedCipher := by
  refine ⟨by rfl, by rfl, by rfl, by rfl, by rfl, ?_⟩
  simp [newDataCipherFromCipherSuite, h1, h2, h3, h4, h5]

/-- C4 witness: the theorem at the unsupported suite name `BF-CBC`. -/
theorem newDataCipherFromCipherSuite_spec_witness :
    newDataCipherFromCipherSuite "AES-128-CBC" = .ok { ksb := 16, mode := cipherModeCBC } ∧
    newDataCipherFromCipherSuite "AES-192-CBC" = .ok { ksb := 24, mode := cipherModeCBC } ∧
    newDataCipherFromCipherSuite "AES-256-CBC" = .ok { ksb := 32, mode := cipherModeCBC } ∧
    newDataCipherFromCipherSuite "AES-128-GCM" = .ok { ksb := 16, mode := cipherModeGCM } ∧
    newDataCipherFromCipherSuite "AES-256-GCM" = .ok { ksb := 32, mode := cipherModeGCM } ∧
    newDataCipherFromCipherSuite "BF-CBC" = .error .unsupportedCipher :=
  newDataCipherFromCipherSuite_spec "BF-CBC"
    (by decide) (by decide) (by decide) (by decide) (by decide)

/-- C8 counterexample: when an inbound data packet decrypts to the 16-byte
fixed keepalive payload, `moveUpWorker` sends nothing down to the muxer
(no re-encrypted reply, contradicting the claimed response) and delivers
nothing to the TUN. -/
theorem moveUpWorker_keepalive_no_reply :
    moveUpWorkerStep (.ok pingPayload16) = { toTUN := none, toMuxer := [] } := by
  decide

/-- C8 amended: every plaintext `moveUpWorker` delivers to the TUN has a
length other than 16 and was a successfully decrypted inbound packet, so a
packet that decrypts to the 16-byte keepalive payload is never delivered
to the TUN; and the worker never sends any packet down to the muxer, so no
keepalive reply is sent either. -/
theorem moveUpWorker_drops_16 (results : List (Except DCErr (List Nat)))
    (d : List Nat) (hmem : d ∈ (moveUpWorkerRun results).1) :
    d.length ≠ 16 ∧ Except.ok d ∈ results ∧ (moveUpWorkerRun results).2 = [] := by
  induction results with
  | nil => simp [moveUpWorkerRun] at hmem
  | cons r rest ih =>
    have hmux : ∀ rs : List (Except DCErr (List Nat)), (moveUpWorkerRun rs).2 = [] := by
      intro rs
      induction rs with
      | nil => rfl
      | cons x xs ihx =>
        simp [moveUpWorkerRun, moveUpWorkerStep]
        constructor
        · cases x with
          | error e => simp
          | ok dec =>
            by_cases h16 : dec.length = 16 <;> simp [h16]
        · exact ihx
    cases r with
    | error e =>
      simp only [moveUpWorkerRun, moveUpWorkerStep] at hmem
      obtain ⟨hlen, hin, _⟩ := ih hmem
      exact ⟨hlen, List.mem_cons_of_mem _ hin, hmux _⟩
    | ok dec =>
      by_cases h16 : dec.length = 16
      · simp only [moveUpWorkerRun, moveUpWorkerStep, h16, if_pos] at hmem
        obtain ⟨hlen, hin, _⟩ := ih hmem
        exact ⟨hlen, List.mem_cons_of_mem _ hin, hmux _⟩
      · simp only [moveUpWorkerRun, moveUpWorkerStep, h16, if_neg, if_false] at hmem
        rcases List.mem_cons.mp hmem with hEq | hmem2
        · subst hEq
          exact ⟨h16, List.mem_cons_self _ _, hmux _⟩
        · obtain ⟨hlen, hin, _⟩ := ih hmem2
          exact ⟨hlen, List.mem_cons_of_mem _ hin, hmux _⟩

/-- C8 witness: the theorem on a concrete trace containing the keepalive,
an ordinary packet and a decryption failure. -/
theorem moveUpWorker_drops_16_witness :
    ([1, 2, 3] : List Nat).length ≠ 16 ∧
    Except.ok [1, 2, 3] ∈
      ([.ok pingPayload16, .ok [1, 2, 3], .error .decryptFailed] :
        List (Except DCErr (List Nat))) ∧
    (moveUpWorkerRun [.ok pingPayload16, .ok [1, 2, 3], .error .decryptFailed]).2 = [] :=
  moveUpWorker_drops_16 [.ok pingPayload16, .ok [1, 2, 3], .error .decryptFailed]
    [1, 2, 3] (by decide)

/-- C7 counterexample: `cipherUnpadTextPKCS7` does not reject malformed
padding.  The buffer `[97, 0]` ends in the padding count 0, which no
PKCS#7 padder ever produces (`cipherPadTextPKCS7` always appends between 1
and `bs` copies of a value between 1 and `bs`); instead of an error the
function returns the buffer unchanged — a wrong result. -/
theorem cipherUnpadTextPKCS7_accepts_malformed :
    cipherUnpadTextPKCS7 [97, 0] = some [97, 0] := by
  decide

/-- C7 amended: PKCS#7 padding round-trips — for every byte string `b`
(including the empty string) and every block size `bs` with
`1 ≤ bs ≤ 255`, `unpad (pad b bs) = b` — but `unpad` performs no
validation: it strips however many bytes the last byte indicates (the Go
code panics when the buffer is empty or the count exceeds the buffer), so
malformed padding is accepted rather than rejected. -/
theorem cipherPadUnpadPKCS7_roundtrip (b : List Nat) (bs : Nat)
    (h1 : 1 ≤ bs) (h2 : bs ≤ 255) :
    cipherUnpadTextPKCS7 (cipherPadTextPKCS7 b bs) = some b := by
  have hbs : 0 < bs := h1
  have hmod : b.length % bs < bs := Nat.mod_lt _ hbs
  set k := bs - b.length % bs with hk
  have hk1 : 1 ≤ k := by omega
  have hkbs : k ≤ bs := by omega
  have hk256 : k % 256 = k := Nat.mod_eq_of_lt (by omega)
  have hpad : cipherPadTextPKCS7 b bs = b ++ List.replicate k k := by
    simp only [cipherPadTextPKCS7, ← hk, hk256]
  obtain ⟨j, hj⟩ : ∃ j, k = j + 1 := ⟨k - 1, by omega⟩
  have hrep : List.replicate k k = List.replicate j k ++ [k] := by
    rw [hj]
    exact List.replicate_succ' j (j + 1)
  rw [hpad, hrep, ← List.append_assoc]
  have hlast : ((b ++ List.replicate j k) ++ [k]).getLast? = some k :=
    List.getLast?_concat _
  have hlen : ((b ++ List.replicate j k) ++ [k]).length = b.length + j + 1 := by
    simp [List.length_append, List.length_replicate]
    omega
  simp only [cipherUnpadTextPKCS7, hlast]
  rw [if_pos (by omega)]
  have htake : ((b ++ List.replicate j k) ++ [k]).length - k = b.length := by
    omega
  rw [htake, List.append_assoc, List.take_left]

/-- C7 witness: the round-trip theorem at `b = [1, 2, 3]` and `bs = 4`. -/
theorem cipherPadUnpadPKCS7_roundtrip_witness :
    cipherUnpadTextPKCS7 (cipherPadTextPKCS7 [1, 2, 3] 4) = some [1, 2, 3] :=
  cipherPadUnpadPKCS7_roundtrip [1, 2, 3] 4 (by decide) (by decide)

/-- Length of the `pHash` chunk stream: each iteration contributes one
digest of length `lM`. -/
theorem pHashChunks_length (hm : List Nat → List Nat → List Nat) (lM : Nat)
    (hlen : ∀ k m, (hm k m).length = lM) (secret seed : List Nat) :
    ∀ fuel a, (pHashChunks hm secret seed a fuel).length = fuel * lM := by
  intro fuel
  induction fuel with
  | zero => intro a; simp [pHashChunks]
  | succ n ih =>
    intro a
    simp only [pHashChunks, List.length_append, hlen, ih]
    ring

/-- `pHash` fills exactly the requested number of bytes whenever the digest
has at least one byte. -/
theorem pHash_length (hm : List Nat → List Nat → List Nat) (lM : Nat)
    (hpos : 0 < lM) (hlen : ∀ k m, (hm k m).length = lM)
    (secret seed : List Nat) (olen : Nat) :
    (pHash hm secret seed olen).length = olen := by
  simp only [pHash, List.length_take, pHashChunks_length hm lM hlen secret seed]
  have : olen ≤ olen * lM := Nat.le_mul_of_pos_right olen hpos
  omega

/-- C3 counterexample: for the length-3 secret the second half returned by
`splitPreMasterSecret` has 2 bytes, not `floor (3 / 2) = 1` as the claim
states: the code takes `secret[n/2 :]`, whose length is `ceil (n / 2)`
(the two halves overlap by one byte when `n` is odd, per RFC 4346). -/
theorem splitPreMasterSecret_not_floor :
    (splitPreMasterSecret [0, 0, 0]).2.length = 2 ∧ (3 : Nat) / 2 = 1 := by
  decide

/-- C3 amended: the PRF is the TLS 1.0 construction: the secret is split
into `s1 = secret[0 : ceil (n/2)]` and `s2 = secret[floor (n/2) :]` (both
of length `ceil (n/2)`, overlapping in the middle byte when `n` is odd);
P_MD5 runs with `s1` and P_SHA1 with `s2`, both over `label ++ seed`; the
two streams are XORed byte-wise; and the output has exactly the requested
length, for any digest functions of fixed positive output size. -/
theorem prf10_spec (hM hS : List Nat → List Nat → List Nat) (lM lS : Nat)
    (hlM : 0 < lM) (hlS : 0 < lS)
    (hMlen : ∀ k m, (hM k m).length = lM) (hSlen : ∀ k m, (hS k m).length = lS)
    (secret label seed : List Nat) (olen : Nat) :
    (splitPreMasterSecret secret).1 = secret.take ((secret.length + 1) / 2) ∧
    (splitPreMasterSecret secret).2 = secret.drop (secret.length / 2) ∧
    (splitPreMasterSecret secret).1.length = (secret.length + 1) / 2 ∧
    (splitPreMasterSecret secret).2.length = secret.length - secret.length / 2 ∧
    prf10 hM hS secret label seed olen =
      List.zipWith Nat.xor
        (pHash hM (splitPreMasterSecret secret).1 (label ++ seed) olen)
        (pHash hS (splitPreMasterSecret secret).2 (label ++ seed) olen) ∧
    (prf10 hM hS secret label seed olen).length = olen := by
  refine ⟨rfl, rfl, ?_, ?_, rfl, ?_⟩
  · simp only [splitPreMasterSecret, List.length_take]
    omega
  · simp only [splitPreMasterSecret, List.length_drop]
  · simp only [prf10, List.length_zipWith,
      pHash_length hM lM hlM hMlen, pHash_length hS lS hlS hSlen]
    omega

/-- C3 witness: the amended theorem at one-byte digest functions, a 3-byte
secret and a 5-byte output. -/
theorem prf10_spec_witness :
    (splitPreMasterSecret [1, 2, 3]).1 = List.take ((3 + 1) / 2) [1, 2, 3] ∧
    (splitPreMasterSecret [1, 2, 3]).2 = List.drop (3 / 2) [1, 2, 3] ∧
    (splitPreMasterSecret [1, 2, 3]).1.length = (3 + 1) / 2 ∧
    (splitPreMasterSecret [1, 2, 3]).2.length = 3 - 3 / 2 ∧
    prf10 (fun _ _ => [7]) (fun _ _ => [9]) [1, 2, 3] [4] [5] 5 =
      List.zipWith Nat.xor
        (pHash (fun _ _ => [7]) (splitPreMasterSecret [1, 2, 3]).1 ([4] ++ [5]) 5)
        (pHash (fun _ _ => [9]) (splitPreMasterSecret [1, 2, 3]).2 ([4] ++ [5]) 5) ∧
    (prf10 (fun _ _ => [7]) (fun _ _ => [9]) [1, 2, 3] [4] [5] 5).length = 5 := by
  have h := prf10_spec (fun _ _ => [7]) (fun _ _ => [9]) 1 1 (by decide) (by decide)
    (fun _ _ => rfl) (fun _ _ => rfl) [1, 2, 3] [4] [5] 5
  simpa using h

/-- Effect of a successful `NewPacket` call with a control opcode: the
packet id is the current control counter and only that counter is
bumped. -/
theorem NewPacket_control_pid (m : Manager) (opcode : Opcode) (payload : List Nat)
    (p : Packet) (m' : Manager) (hctl : opcode.isControl = true)
    (h : NewPacket m opcode payload = .ok (p, m')) :
    p.pid = m.localControlPacketID ∧
    m' = { m with localControlPacketID := m.localControlPacketID + 1 } := by
  simp only [NewPacket, hctl, if_true] at h
  by_cases hmax : m.localControlPacketID = maxUint32
  · simp [localControlPacketIDLocked, hmax] at h
  · simp only [localControlPacketIDLocked, hmax, if_false] at h
    rcases hr : m.remoteSessionID with _ | r <;>
      simp only [hr, Except.ok.injEq, Prod.mk.injEq] at h <;>
      exact ⟨by rw [← h.1], h.2.symm⟩

/-- Effect of a successful `NewPacket` call with a non-control opcode. -/
theorem NewPacket_data_pid (m : Manager) (opcode : Opcode) (payload : List Nat)
    (p : Packet) (m' : Manager) (hctl : opcode.isControl = false)
    (h : NewPacket m opcode payload = .ok (p, m')) :
    p.pid = m.localDataPacketID ∧
    m' = { m with localDataPacketID := m.localDataPacketID + 1 } := by
  simp only [NewPacket, hctl, if_false, Bool.false_eq_true] at h
  by_cases hmax : m.localDataPacketID = maxUint32
  · simp [localDataPacketIDLocked, hmax] at h
  · simp only [localDataPacketIDLocked, hmax, if_false] at h
    rcases hr : m.remoteSessionID with _ | r <;>
      simp only [hr, Except.ok.injEq, Prod.mk.injEq] at h <;>
      exact ⟨by rw [← h.1], h.2.symm⟩

/-- Every manager call preserves the control counter or increments it, and
preserves an already-learned remote session id. -/
theorem applyOp_effects (m : Manager) (op : MOp) (m' : Manager)
    (h : applyOp m op = some m') :
    m.localControlPacketID ≤ m'.localControlPacketID ∧
    (∀ r, m.remoteSessionID = some r → m'.remoteSessionID = some r) := by
  cases op with
  | newPacket opcode payload =>
    simp only [applyOp] at h
    rcases hN : NewPacket m opcode payload with e | ⟨p, m2⟩ <;> rw [hN] at h <;>
      injection h with h2
    · subst h2
      exact ⟨le_refl _, fun r hr => hr⟩
    · subst h2
      cases hctl : opcode.isControl with
      | true =>
        obtain ⟨-, hm⟩ := NewPacket_control_pid m opcode payload p m2 hctl hN
        subst hm
        exact ⟨Nat.le_succ _, fun r hr => hr⟩
      | false =>
        obtain ⟨-, hm⟩ := NewPacket_data_pid m opcode payload p m2 hctl hN
        subst hm
        exact ⟨le_refl _, fun r hr => hr⟩
  | newHardReset =>
    injection h with h2
    subst h2
    exact ⟨le_refl _, fun r hr => hr⟩
  | localDataPacketID =>
    simp only [applyOp] at h
    rcases hL : LocalDataPacketID m with e | ⟨pid, m2⟩ <;> rw [hL] at h <;>
      injection h with h2 <;> subst h2
    · exact ⟨le_refl _, fun r hr => hr⟩
    · have hm2 : m2 = { m with localDataPacketID := m.localDataPacketID + 1 } := by
        by_cases hmax : m.localDataPacketID = maxUint32
        · simp [LocalDataPacketID, localDataPacketIDLocked, hmax] at hL
        · simp only [LocalDataPacketID, localDataPacketIDLocked, hmax, if_false,
            Except.ok.injEq, Prod.mk.injEq] at hL
          exact hL.2.symm
      subst hm2
      exact ⟨le_refl _, fun r hr => hr⟩
  | newACK ids =>
    injection h with h2
    subst h2
    exact ⟨le_refl _, fun r hr => hr⟩
  | setRemoteSessionID r0 =>
    simp only [applyOp, SetRemoteSessionID] at h
    by_cases hnone : m.remoteSessionID.isNone
    · rw [if_pos hnone] at h
      injection h with h2
      subst h2
      refine ⟨le_refl _, fun r hr => ?_⟩
      rw [hr] at hnone
      cases hnone
    · rw [if_neg hnone] at h
      cases h
  | setNegotiationState sns =>
    injection h with h2
    subst h2
    exact ⟨le_refl _, fun r hr => hr⟩

/-- `applyOp_effects` extended to call sequences. -/
theorem runOps_effects (ops : List MOp) (m m' : Manager)
    (h : runOps m ops = some m') :
    m.localControlPacketID ≤ m'.localControlPacketID ∧
    (∀ r, m.remoteSessionID = some r → m'.remoteSessionID = some r) := by
  induction ops generalizing m with
  | nil =>
    injection h with h2
    subst h2
    exact ⟨le_refl _, fun r hr => hr⟩
  | cons op rest ih =>
    simp only [runOps] at h
    rcases ha : applyOp m op with _ | m2 <;> rw [ha] at h
    · cases h
    · obtain ⟨h1, h2⟩ := applyOp_effects m op m2 ha
      obtain ⟨h3, h4⟩ := ih m2 h
      exact ⟨le_trans h1 h3, fun r hr => h4 r (h2 r hr)⟩

/-- C5: in every manager state reachable from a fresh manager,
`NewHardResetPacket` returns a packet with id 0 and leaves the manager
(and so the local control packet-id counter) untouched, while a
successful `NewPacket` with a control opcode never returns packet id 0
(the control counter starts at 1 and no call ever decreases it). -/
theorem hardReset_zero_control_nonzero (rb : List Nat) (ops : List MOp)
    (m : Manager) (opcode : Opcode) (payload : List Nat)
    (hrun : runOps (newManager rb) ops = some m)
    (hctl : opcode.isControl = true) :
    (NewHardResetPacket m).1.pid = 0 ∧
    (NewHardResetPacket m).2 = m ∧
    1 ≤ m.localControlPacketID ∧
    (match NewPacket m opcode payload with
     | .ok (p, _) => p.pid ≠ 0
     | .error _ => True) := by
  have hinv : 1 ≤ m.localControlPacketID := by
    have := (runOps_effects ops (newManager rb) m hrun).1
    simpa [newManager] using this
  refine ⟨rfl, rfl, hinv, ?_⟩
  rcases hN : NewPacket m opcode payload with e | ⟨p, m2⟩
  · exact trivial
  · obtain ⟨hpid, -⟩ := NewPacket_control_pid m opcode payload p m2 hctl hN
    simp only [hpid]
    omega

/-- C5 witness: the theorem after the call sequence
`[newHardReset, newPacket CONTROL_V1]` with a `CONTROL_V1` probe. -/
theorem hardReset_zero_control_nonzero_witness :
    (NewHardResetPacket (newManager [1, 2, 3, 4, 5, 6, 7, 8])).1.pid = 0 ∧
    (NewHardResetPacket (newManager [1, 2, 3, 4, 5, 6, 7, 8])).2 =
      newManager [1, 2, 3, 4, 5, 6, 7, 8] ∧
    1 ≤ (newManager [1, 2, 3, 4, 5, 6, 7, 8]).localControlPacketID ∧
    (match NewPacket (newManager [1, 2, 3, 4, 5, 6, 7, 8]) .controlV1 [42] with
     | .ok (p, _) => p.pid ≠ 0
     | .error _ => True) :=
  hardReset_zero_control_nonzero [1, 2, 3, 4, 5, 6, 7, 8] []
    (newManager [1, 2, 3, 4, 5, 6, 7, 8]) .controlV1 [42] rfl rfl

/-- C6: the remote session id is learned exactly once.  On a fresh manager
`SetRemoteSessionID` stores the given id; once some id is stored, any
further `SetRemoteSessionID` call panics (the `runtimex` assertion, here
`none`); and no sequence of non-panicking manager calls ever changes the
stored id. -/
theorem remoteSessionID_set_once (rb r2 r' : List Nat) (m m2 : Manager)
    (ops : List MOp) (hset : m.remoteSessionID = some r2)
    (hrun : runOps m ops = some m2) :
    SetRemoteSessionID (newManager rb) r' =
      some { newManager rb with remoteSessionID := some r' } ∧
    SetRemoteSessionID m r' = none ∧
    m2.remoteSessionID = some r2 := by
  refine ⟨rfl, ?_, (runOps_effects ops m m2 hrun).2 r2 hset⟩
  simp [SetRemoteSessionID, hset]

/-- C6 witness: the theorem at a manager that has stored `[9]` as remote
session id, running a hard reset, a state change and an ACK creation. -/
theorem remoteSessionID_set_once_witness :
    SetRemoteSessionID (newManager []) [7] =
      some { newManager [] with remoteSessionID := some [7] } ∧
    SetRemoteSessionID
      { keyID := 0, localControlPacketID := 3, localDataPacketID := 4,
        localSessionID := [1], negState := 3, remoteSessionID := some [9] } [7] = none ∧
    ({ keyID := 0, localControlPacketID := 3, localDataPacketID := 4,
       localSessionID := [1], negState := 5,
       remoteSessionID := some [9] } : Manager).remoteSessionID = some [9] :=
  remoteSessionID_set_once [] [9] [7]
    { keyID := 0, localControlPacketID := 3, localDataPacketID := 4,
      localSessionID := [1], negState := 3, remoteSessionID := some [9] }
    { keyID := 0, localControlPacketID := 3, localDataPacketID := 4,
      localSessionID := [1], negState := 5, remoteSessionID := some [9] }
    [.newHardReset, .setNegotiationState 5, .newACK [2]] rfl (by decide)

/-- `bytesUnpadPKCS7` only ever fails with the unpadding error, never with
`errInvalidKeySize`. -/
theorem bytesUnpadPKCS7_ne_invalidKeySize (b : List Nat) (n : Nat) :
    bytesUnpadPKCS7 b n ≠ .error .invalidKeySize := by
  unfold bytesUnpadPKCS7
  intro h
  split at h
  · cases h
  · split at h
    · cases h
    · split at h
      · cases h
      · cases h

/-- C10: `dataCipherAES.encrypt` and `dataCipherAES.decrypt` depend on the
key material only through its first `keySizeBytes` bytes — two keys of
sufficient length agreeing on that prefix give identical results — and
they return `errInvalidKeySize` exactly when the key is shorter than the
cipher's key size (for an arbitrary probe key `key3`). -/
theorem dataCipherAES_key_spec (B : AESBackend) (a : DataCipherAES)
    (key key2 key3 iv x ad : List Nat)
    (h1 : a.ksb ≤ key.length) (h2 : a.ksb ≤ key2.length)
    (hpre : key.take a.ksb = key2.take a.ksb) :
    dataCipherAESencrypt B a key iv x ad = dataCipherAESencrypt B a key2 iv x ad ∧
    dataCipherAESdecrypt B a key iv x ad = dataCipherAESdecrypt B a key2 iv x ad ∧
    (dataCipherAESencrypt B a key3 iv x ad = .error .invalidKeySize ↔
      key3.length < a.ksb) ∧
    (dataCipherAESdecrypt B a key3 iv x ad = .error .invalidKeySize ↔
      key3.length < a.ksb) := by
  have hk1 : ¬(key.length < a.ksb) := not_lt.mpr h1
  have hk2 : ¬(key2.length < a.ksb) := not_lt.mpr h2
  refine ⟨?_, ?_, ?_, ?_⟩
  · unfold dataCipherAESencrypt
    rw [if_neg hk1, if_neg hk2, hpre]
  · unfold dataCipherAESdecrypt
    rw [if_neg hk1, if_neg hk2, hpre]
  · constructor
    · intro h
      by_contra hge
      unfold dataCipherAESencrypt at h
      rw [if_neg hge] at h
      simp only [] at h
      repeat' split at h
      all_goals simp_all
    · intro h
      unfold dataCipherAESencrypt
      rw [if_pos h]
  · constructor
    · intro h
      by_contra hge
      unfold dataCipherAESdecrypt at h
      rw [if_neg hge] at h
      simp only [] at h
      repeat' split at h
      all_goals simp_all [bytesUnpadPKCS7_ne_invalidKeySize]
    · intro h
      unfold dataCipherAESdecrypt
      rw [if_pos h]

/-- A concrete crypto backend used to instantiate the C10 theorem. -/
def witnessBackend : AESBackend :=
  { newCipher := fun _ =>
      .ok { blockSize := 16
            cbcEncrypt := fun _ pt => pt
            cbcDecrypt := fun _ ct => ct }
    newGCM := fun _ =>
      .ok { sealGCM := fun _ pt _ => pt
            openGCM := fun _ ct _ => .ok ct } }

/-- C10 witness: the theorem at a 2-byte-key CBC cipher, two 3-byte keys
sharing the prefix `[1, 2]`, and a short 1-byte probe key. -/
theorem dataCipherAES_key_spec_witness :
    dataCipherAESencrypt witnessBackend { ksb := 2, mode := cipherModeCBC }
        [1, 2, 9] [0] [5] [] =
      dataCipherAESencrypt witnessBackend { ksb := 2, mode := cipherModeCBC }
        [1, 2, 7] [0] [5] [] ∧
    dataCipherAESdecrypt witnessBackend { ksb := 2, mode := cipherModeCBC }
        [1, 2, 9] [0] [5] [] =
      dataCipherAESdecrypt witnessBackend { ksb := 2, mode := cipherModeCBC }
        [1, 2, 7] [0] [5] [] ∧
    (dataCipherAESencrypt witnessBackend { ksb := 2, mode := cipherModeCBC }
        [9] [0] [5] [] = .error .invalidKeySize ↔ ([9] : List Nat).length < 2) ∧
    (dataCipherAESdecrypt witnessBackend { ksb := 2, mode := cipherModeCBC }
        [9] [0] [5] [] = .error .invalidKeySize ↔ ([9] : List Nat).length < 2) :=
  dataCipherAES_key_spec witnessBackend { ksb := 2, mode := cipherModeCBC }
    [1, 2, 9] [1, 2, 7] [9] [0] [5] [] (by decide) (by decide) (by decide)

/-- C1: a `TLSConn.Read` call writes a payload into the reliable byte
stream only when its packet is the next expected one in the session's
packet-id sequence — the delivered packet has id `lastACK + 1`, exactly
that id is ACKed, and the expected sequence advances by one, which makes
successive deliveries strictly ascending with no gaps — while every other
packet examined (from the conn or from the queue) is placed on the ack
queue and not delivered: the final queue holds exactly the old queue plus
the consumed conn packets, minus the delivered one. -/
theorem tlsRead_delivers_next (conn : List RPacket) (s s' : TLSState)
    (res : Option (List Nat)) (rest : List RPacket)
    (h : tlsRead s conn = (res, s', rest)) :
    (∀ pl, res = some pl →
      ∃ p consumed, conn = consumed ++ rest ∧
        p.pid = s.lastACK + 1 ∧ pl = p.payload ∧
        s'.lastACK = s.lastACK + 1 ∧ s'.acked = s.acked ++ [s.lastACK + 1] ∧
        (p :: s'.ackQueue).Perm (s.ackQueue ++ consumed)) ∧
    (res = none →
      rest = [] ∧ s'.lastACK = s.lastACK ∧ s'.acked = s.acked ∧
      s'.ackQueue.Perm (s.ackQueue ++ conn)) := by
  revert h
  induction conn generalizing s res s' rest with
  | nil =>
    intro h
    simp only [tlsRead] at h
    split at h
    · rename_i p qrest hq
      split at h
      · rename_i hcr
        have hpc : p.pid = s.lastACK + 1 := by
          simpa [canRead, isNextPacket] using hcr
        simp only [Prod.mk.injEq] at h
        obtain ⟨hres, hs2, hrest⟩ := h
        subst hres
        subst hs2
        subst hrest
        constructor
        · intro pl hpl
          injection hpl with hpl2
          subst hpl2
          refine ⟨p, [], rfl, hpc, rfl, hpc, by simp [sendACK, hpc], ?_⟩
          simp [sendACK, hq]
        · intro hcontra
          cases hcontra
      · rename_i hcr
        simp only [Prod.mk.injEq] at h
        obtain ⟨hres, hs2, hrest⟩ := h
        subst hres
        subst hs2
        subst hrest
        constructor
        · intro pl hpl
          cases hpl
        · intro _
          refine ⟨rfl, rfl, rfl, ?_⟩
          rw [hq, List.append_nil]
          exact List.perm_append_singleton p qrest
    · rename_i hq
      simp only [Prod.mk.injEq] at h
      obtain ⟨hres, hs2, hrest⟩ := h
      subst hres
      subst hs2
      subst hrest
      constructor
      · intro pl hpl
        cases hpl
      · intro _
        refine ⟨rfl, rfl, rfl, ?_⟩
        rw [List.append_nil]
  | cons q rest0 ih =>
    intro h
    simp only [tlsRead] at h
    split at h
    · rename_i p qrest hq
      split at h
      · -- the queue head is the next packet: delivered from the queue
        rename_i hcr
        have hpc : p.pid = s.lastACK + 1 := by
          simpa [canRead, isNextPacket] using hcr
        simp only [Prod.mk.injEq] at h
        obtain ⟨hres, hs2, hrest⟩ := h
        subst hres
        subst hs2
        subst hrest
        constructor
        · intro pl hpl
          injection hpl with hpl2
          subst hpl2
          refine ⟨p, [], rfl, hpc, rfl, hpc, by simp [sendACK, hpc], ?_⟩
          simp [sendACK, hq]
        · intro hcontra
          cases hcontra
      · rename_i hcr
        split at h
        · -- the fresh conn packet is the next one: delivered from the conn
          rename_i hcrq
          have hqc : q.pid = s.lastACK + 1 := by
            simpa [canRead, isNextPacket] using hcrq
          simp only [Prod.mk.injEq] at h
          obtain ⟨hres, hs2, hrest⟩ := h
          subst hres
          subst hs2
          subst hrest
          constructor
          · intro pl hpl
            injection hpl with hpl2
            subst hpl2
            refine ⟨q, [q], rfl, hqc, rfl, hqc, by simp [sendACK, hqc], ?_⟩
            rw [hq]
            have perm1 : (q :: (qrest ++ [p])).Perm (q :: (p :: qrest)) :=
              (List.perm_append_singleton p qrest).cons q
            have perm2 : ((p :: qrest) ++ [q]).Perm (q :: (p :: qrest)) :=
              List.perm_append_singleton q (p :: qrest)
            exact perm1.trans perm2.symm
          · intro hcontra
            cases hcontra
        · -- neither is next: the conn packet joins the queue and we loop
          rename_i hcrq
          obtain ⟨ih1, ih2⟩ := ih _ _ _ _ h
          constructor
          · intro pl hpl
            obtain ⟨p', consumed2, hconn2, hpid, hplp, hLA, hak, hperm⟩ := ih1 pl hpl
            refine ⟨p', q :: consumed2, by simp [hconn2], hpid, hplp, hLA, hak, ?_⟩
            rw [hq]
            have e1 : ((qrest ++ [p]) ++ [q]) ++ consumed2 =
                (qrest ++ [p]) ++ (q :: consumed2) := by
              rw [List.append_assoc]
              rfl
            have permA : ((qrest ++ [p]) ++ (q :: consumed2)).Perm
                ((p :: qrest) ++ (q :: consumed2)) :=
              (List.perm_append_singleton p qrest).append_right _
            exact hperm.trans (e1 ▸ permA)
          · intro hnone
            obtain ⟨hrest, hLA, hak, hperm⟩ := ih2 hnone
            refine ⟨hrest, hLA, hak, ?_⟩
            rw [hq]
            have e1 : ((qrest ++ [p]) ++ [q]) ++ rest0 =
                (qrest ++ [p]) ++ (q :: rest0) := by
              rw [List.append_assoc]
              rfl
            have permA : ((qrest ++ [p]) ++ (q :: rest0)).Perm
                ((p :: qrest) ++ (q :: rest0)) :=
              (List.perm_append_singleton p qrest).append_right _
            exact hperm.trans (e1 ▸ permA)
    · rename_i hq
      split at h
      · -- empty queue, the conn packet is the next one: delivered
        rename_i hcrq
        have hqc : q.pid = s.lastACK + 1 := by
          simpa [canRead, isNextPacket] using hcrq
        simp only [Prod.mk.injEq] at h
        obtain ⟨hres, hs2, hrest⟩ := h
        subst hres
        subst hs2
        subst hrest
        constructor
        · intro pl hpl
          injection hpl with hpl2
          subst hpl2
          exact ⟨q, [q], rfl, hqc, rfl, hqc, by simp [sendACK, hqc],
            (List.perm_append_singleton q s.ackQueue).symm⟩
        · intro hcontra
          cases hcontra
      · -- empty queue, not the next one: it joins the queue and we loop
        rename_i hcrq
        obtain ⟨ih1, ih2⟩ := ih _ _ _ _ h
        constructor
        · intro pl hpl
          obtain ⟨p', consumed2, hconn2, hpid, hplp, hLA, hak, hperm⟩ := ih1 pl hpl
          refine ⟨p', q :: consumed2, by simp [hconn2], hpid, hplp, hLA, hak, ?_⟩
          have e1 : (s.ackQueue ++ [q]) ++ consumed2 =
              s.ackQueue ++ (q :: consumed2) := by
            rw [List.append_assoc]
            rfl
          exact e1 ▸ hperm
        · intro hnone
          obtain ⟨hrest, hLA, hak, hperm⟩ := ih2 hnone
          refine ⟨hrest, hLA, hak, ?_⟩
          have e1 : (s.ackQueue ++ [q]) ++ rest0 = s.ackQueue ++ (q :: rest0) := by
            rw [List.append_assoc]
            rfl
          exact e1 ▸ hperm

/-- C1 witness: reading the reordered conn stream `[id 2, id 1]` from a
fresh session delivers the payload of packet 1 (the next expected), ACKs
it, and leaves packet 2 on the ack queue. -/
theorem tlsRead_delivers_next_witness :
    (∀ pl, (some [7] : Option (List Nat)) = some pl →
      ∃ p consumed,
        ([⟨2, [5]⟩, ⟨1, [7]⟩] : List RPacket) = consumed ++ ([] : List RPacket) ∧
        p.pid = 0 + 1 ∧ pl = p.payload ∧
        (⟨1, [⟨2, [5]⟩], [1]⟩ : TLSState).lastACK = 0 + 1 ∧
        (⟨1, [⟨2, [5]⟩], [1]⟩ : TLSState).acked = [] ++ [0 + 1] ∧
        (p :: (⟨1, [⟨2, [5]⟩], [1]⟩ : TLSState).ackQueue).Perm ([] ++ consumed)) ∧
    ((some [7] : Option (List Nat)) = none →
      ([] : List RPacket) = [] ∧
      (⟨1, [⟨2, [5]⟩], [1]⟩ : TLSState).lastACK = 0 ∧
      (⟨1, [⟨2, [5]⟩], [1]⟩ : TLSState).acked = ([] : List Nat) ∧
      (⟨1, [⟨2, [5]⟩], [1]⟩ : TLSState).ackQueue.Perm
        ([] ++ [⟨2, [5]⟩, ⟨1, [7]⟩])) :=
  tlsRead_delivers_next [⟨2, [5]⟩, ⟨1, [7]⟩] ⟨0, [], []⟩ ⟨1, [⟨2, [5]⟩], [1]⟩
    (some [7]) [] (by decide)

end Minivpn
